import Mathlib

/-!
# Verification of the grocky/resume static file server

A shallow embedding of the repository's Go helper programs:

* `server.go` — an HTTP static file server composed of a logging middleware
  (`logMiddleware`) wrapped around `http.FileServer(http.Dir("./docs"))`,
  bootstrapped by `main` (flag `-p`, default `"9000"`).
* `compression/main.go` — the argument handling at the top of the PDF optimizer CLI.

Effects are made explicit: a handler receives the request and a start
timestamp (nanoseconds, as in Go's `time.Time` monotonic reading) and returns
an outcome (normal response or panic), an end timestamp, and the log lines it
emitted, in temporal order.  The static file facility (`net/http`'s
`FileServer`/`Dir`) is library code outside this repository; it is modelled
from the spec where noted.
-/

namespace Resume

/-- An HTTP request as seen by the server: `r.Method`, `r.RequestURI`
(the raw request URI logged by the middleware) and `r.URL.Path`
(the path the file server resolves). -/
structure Request where
  method : String
  requestURI : String
  path : String
deriving DecidableEq, Repr

/-- Outcome of running a handler: it returns normally with a response, or it
panics (the panic propagates to the caller). -/
inductive HOutcome (ρ : Type) where
  | ok (resp : ρ)
  | panic
deriving DecidableEq, Repr

/-- Result of one handler invocation: the outcome, the timestamp (ns) at which
the handler returned control, and the log lines it wrote, in temporal order. -/
structure HResult (ρ : Type) where
  outcome : HOutcome ρ
  endTime : Int
  lines : List String
deriving DecidableEq, Repr

/-- A handler: request and start timestamp in, `HResult` out. -/
abbrev Handler (ρ : Type) := Request → Int → HResult ρ

/-- A handler is monotone when it never returns control before it was
invoked; Go's `time.Since` reads the monotonic clock, so wall-clock
adjustments cannot make the elapsed time negative. -/
def Handler.Monotone {ρ : Type} (h : Handler ρ) : Prop :=
  ∀ r t, t ≤ (h r t).endTime

/-- Left-pad a string with zeros to width `w`. -/
def padZeros (w : Nat) (s : String) : String :=
  String.mk (List.replicate (w - s.length) '0') ++ s

/-- The fixed six-decimal rendering of `ns` nanoseconds as milliseconds:
the exact value of `float64(ns)/float64(time.Millisecond)` printed by Go's
`%f` verb (precision 6).  Since a nanosecond count has exactly six decimal
digits below the millisecond, the exact decimal expansion is used in place
of binary floating point. -/
def formatMsNat (ns : Nat) : String :=
  toString (ns / 1000000) ++ "." ++ padZeros 6 (toString (ns % 1000000))

/-- Rendering of a signed nanosecond duration in milliseconds, `%f` style. -/
def formatMs (ns : Int) : String :=
  if ns < 0 then "-" ++ formatMsNat ns.natAbs else formatMsNat ns.toNat

/-- The log line `log.Printf("%s %s %fms", r.Method, r.RequestURI, duration)`
produces for request `r` when the elapsed time is `ns` nanoseconds. -/
def logLine (r : Request) (ns : Int) : String :=
  r.method ++ " " ++ r.requestURI ++ " " ++ formatMs ns ++ "ms"

/-- The function `logMiddleware` from `server.go`:

```go
func logMiddleware(h http.Handler) http.Handler {
    return http.HandlerFunc(func(w http.ResponseWriter, r *http.Request) {
        start := time.Now()
        h.ServeHTTP(w, r)
        duration := float64(time.Since(start)) / float64(time.Millisecond)
        log.Printf("%s %s %fms", r.Method, r.RequestURI, duration)
    })
}
```

The wrapped handler records the start time, delegates to `h` with the request
unchanged, and — if `h` returns normally — appends exactly one log line after
all of the lines `h` wrote.  A panic in `h` propagates before `log.Printf`
runs, so no line is added in that case. -/
def logMiddleware {ρ : Type} (h : Handler ρ) : Handler ρ :=
  fun r start =>
    let res := h r start
    match res.outcome with
    | .ok resp =>
        { outcome := .ok resp
          endTime := res.endTime
          lines := res.lines ++ [logLine r (res.endTime - start)] }
    | .panic => res

/-- An HTTP response produced by the static handler: status, body bytes, and
the content length reported alongside the body. -/
structure Response where
  status : Nat
  body : String
  contentLength : Nat
deriving DecidableEq, Repr

/-- The served file tree seen by the plain-GET fragment `serveFile`:
absolute path (as segments below the process working directory) to file
content, `none` when no regular file is there.  Directories are represented
in the richer `FsTree` used by `serveStatic`. -/
def FileSystem := List String → Option String

/-- Modelled from the spec: the path-traversal neutralization of the static
file facility (`net/http`'s `Dir.Open` applies `path.Clean("/" + name)`
before joining with the root, which is spec §4.2 step 1, "reject (or
neutralize) path traversal sequences so resolution can never escape the
configured root directory").  Rooted lexical cleaning over the slash-separated
segments of the URL path: empty and `.` segments vanish, `..` pops the last
retained segment and is dropped at the root. -/
def cleanLoop (acc : List String) : List String → List String
  | [] => acc
  | seg :: rest =>
    if seg = "" ∨ seg = "." then cleanLoop acc rest
    else if seg = ".." then cleanLoop acc.dropLast rest
    else cleanLoop (acc ++ [seg]) rest

/-- Split a character list at every `/`, keeping empty segments (the
behavior of splitting a path string on the separator). -/
def splitSlash : List Char → List (List Char)
  | [] => [[]]
  | c :: cs =>
    if c = '/' then [] :: splitSlash cs
    else
      match splitSlash cs with
      | [] => [[c]]
      | s :: ss => (c :: s) :: ss

/-- The slash-separated segments of a URL path. -/
def pathSegs (name : String) : List String :=
  (splitSlash name.data).map String.mk

/-- Neutralized segments of a URL path. -/
def cleanName (name : String) : List String :=
  cleanLoop [] (pathSegs name)

/-- The root directory the server publishes: `directory := "./docs"` in
`main`; joining it with a rooted cleaned path yields paths below `docs`. -/
def rootSegs : List String := ["docs"]

/-- The filesystem path the static handler resolves a URL path to:
the configured root extended by the neutralized segments. -/
def resolve (root : List String) (name : String) : List String :=
  root ++ cleanName name

/-- Modelled from the spec: the plain-GET, regular-file fragment of the
static content handler (`http.FileServer(http.Dir(directory))`, library code
outside this repository; spec §4.2 steps 1 and 4).  The URL path is
neutralized and resolved under the root; an existing regular file is served
with status 200, its bytes as the body and its size as the content length;
otherwise the response is the generic not-found page.  This fragment backs
the bootstrap model and the idempotence claim, whose domains are confined to
plain GETs of existing regular files; `serveStatic` below models the full
behavior of spec §4.2, directories and conditional and range requests
included. -/
def serveFile (fs : FileSystem) (root : List String) (name : String) : Response :=
  match fs (resolve root name) with
  | some content => { status := 200, body := content, contentLength := content.length }
  | none => { status := 404, body := "404 page not found\n", contentLength := 19 }

/-- The downstream handler `main` composes: the static file handler bound to
the fixed root.  It writes no log lines and never panics; `δ` gives the time
the filesystem and network work takes for a given request and start time. -/
def fileHandler (fs : FileSystem) (δ : Request → Int → Int) : Handler Response :=
  fun r t =>
    { outcome := .ok (serveFile fs rootSegs r.path)
      endTime := t + δ r t
      lines := [] }

/-- The root handler registered in `main`: `logMiddleware(fs)`. -/
def composedHandler (fs : FileSystem) (δ : Request → Int → Int) : Handler Response :=
  logMiddleware (fileHandler fs δ)

/-- Ways `flag.Parse` can stop `main` before it runs: `-h`/`-help` on an
undefined name prints usage (exit 0 under `ExitOnError`), anything else
prints an error and usage (exit 2). -/
inductive FlagError where
  | help
  | badSyntax (arg : String)
  | undefinedFlag (name : String)
  | missingValue (name : String)
deriving DecidableEq, Repr

/-- Split a flag body at its first `=`, as `flag.parseOne` does:
`p=8080` becomes `(p, some 8080)`, `p` becomes `(p, none)`. -/
def splitEq : List Char → List Char × Option (List Char)
  | [] => ([], none)
  | c :: cs =>
    if c = '=' then ([], some cs)
    else
      let (n, v) := splitEq cs
      (c :: n, v)

/-- Modelled from the spec: the `flag` package's `Parse` loop (library code
outside this repository) specialized to `main`'s single definition
`flag.String("p", "9000", "port to serve on")` — spec §4.3/§6, "a single
recognized command-line option, the listen port (string, default `\"9000\"`)".
Faithful to `flag.(*FlagSet).parseOne`: parsing stops at the first argument
that is shorter than two characters or does not start with `-`, and at a bare
`--`; a flag body may carry its value after `=` or in the following argument;
an undefined flag name is an error, except that `-h`/`-help` request usage. -/
def parseArgs : List String → String → Except FlagError String
  | [], port => .ok port
  | s :: rest, port =>
    match s.data with
    | '-' :: c :: cs =>
      if c = '-' ∧ cs = [] then .ok port
      else
        let body := if c = '-' then cs else c :: cs
        match body with
        | [] => .ok port
        | n :: _ =>
          if n = '-' ∨ n = '=' then .error (.badSyntax s)
          else
            let (name, val) := splitEq body
            if name = ['p'] then
              match val with
              | some v => parseArgs rest (String.mk v)
              | none =>
                match rest with
                | v :: more => parseArgs more v
                | [] => .error (.missingValue "p")
            else if name = ['h'] ∨ name = ['h', 'e', 'l', 'p'] then .error .help
            else .error (.undefinedFlag (String.mk name))
    | _ => .ok port

/-- The port `main` ends up with: `flag.String("p", "9000", ...)` then
`flag.Parse()` over the process arguments (without the program name). -/
def parsePort (args : List String) : Except FlagError String :=
  parseArgs args "9000"

/-- The startup line `log.Printf("Serving %s on HTTP port: %s\n", directory,
*port)` emits (the `log` package strips nothing; the explicit newline ends
the line). -/
def startupLine (port : String) : String :=
  "Serving ./docs on HTTP port: " ++ port

/-- How the process ends up: killed by `flag.Parse` (exit code), killed by
`log.Fatal` after `ListenAndServe` returned an error (exit 1), or serving
forever. -/
inductive Outcome where
  | exited (code : Nat)
  | serving
deriving DecidableEq, Repr

/-- Observable trace of one run of `main`: the lines written to the standard
log sink in order, the address handed to `ListenAndServe` (if reached), the
responses produced for the requests handled, and how the process ended up. -/
structure BootTrace where
  log : List String
  addr : Option String
  responses : List Response
  outcome : Outcome
deriving Repr

/-- The log lines the composed handler writes for a request sequence
(requests paired with their start timestamps), in order. -/
def requestLines (fs : FileSystem) (δ : Request → Int → Int)
    (reqs : List (Request × Int)) : List String :=
  reqs.flatMap fun p => (composedHandler fs δ p.1 p.2).lines

/-- The function `main` from `server.go`:

```go
func main() {
    port := flag.String("p", "9000", "port to serve on")
    directory := "./docs"
    flag.Parse()

    fs := http.FileServer(http.Dir(directory))
    http.Handle("/", logMiddleware(fs))

    log.Printf("Serving %s on HTTP port: %s\n", directory, *port)
    log.Fatal(http.ListenAndServe(":"+*port, nil))
}
```

The environment is passed in explicitly: `bind` says whether binding a given
address fails (and with what error message), `fs` is the served tree, `δ` the
per-request handling time, and `reqs` the inbound requests.  `flag.Parse`
failure exits before anything is logged; otherwise the startup line is logged,
then the bind is attempted once — an error is logged by `log.Fatal` which
exits with code 1, and success serves the request sequence forever. -/
def runServer (args : List String) (bind : String → Option String)
    (fs : FileSystem) (δ : Request → Int → Int)
    (reqs : List (Request × Int)) : BootTrace :=
  match parsePort args with
  | .error .help => { log := [], addr := none, responses := [], outcome := .exited 0 }
  | .error _ => { log := [], addr := none, responses := [], outcome := .exited 2 }
  | .ok port =>
    match bind (":" ++ port) with
    | some e =>
        { log := [startupLine port, e]
          addr := some (":" ++ port)
          responses := []
          outcome := .exited 1 }
    | none =>
        { log := startupLine port :: requestLines fs δ reqs
          addr := some (":" ++ port)
          responses := reqs.map fun p => serveFile fs rootSegs p.1.path
          outcome := .serving }

/-- The argument handling at the top of `compression/main.go`:

```go
args := os.Args
if len(args) < 3 {
    fmt.Printf("Usage: %s <input.pdf> <output.pdf>\n", args[0])
}
inputPath := args[1]
outputPath := args[2]
```

The usage message is printed when fewer than three arguments are present, but
control then falls through to the indexing of `args[1]` and `args[2]`, which
panics when either is absent.  The first component records whether usage was
printed, the second what the fall-through does. -/
inductive CompressionOutcome where
  | panic (msg : String)
  | proceeded (inputPath outputPath : String)
deriving DecidableEq, Repr

/-- See `CompressionOutcome`. -/
def compressionRun (args : List String) : Bool × CompressionOutcome :=
  let usagePrinted := decide (args.length < 3)
  match args.get? 1, args.get? 2 with
  | some i, some o => (usagePrinted, .proceeded i o)
  | _, _ => (usagePrinted, .panic "index out of range")

/-- A node of the served tree as the full static facility sees it: a regular
file with content and modification time, a directory with its entry names,
or an entry whose read fails (permission denied, I/O error). -/
inductive Node where
  | file (content : String) (modTime : Nat)
  | dir (entries : List String)
  | unreadable
deriving DecidableEq, Repr

/-- The served tree for the full static handler: absolute path (segments
below the process working directory) to the node there, `none` when nothing
exists at that path. -/
def FsTree := List String → Option Node

/-- A request as the full static handler sees it: method (`GET` or `HEAD`
are served; anything else is refused), URL path, the If-Modified-Since
timestamp when the client sent one, and the requested byte range (first
byte and length) when the client sent one. -/
structure StaticRequest where
  method : String := "GET"
  path : String
  ifModifiedSince : Option Nat := none
  range : Option (Nat × Nat) := none
deriving DecidableEq, Repr

/-- The byte subrange of a string: `len` bytes starting at `start`. -/
def substr (s : String) (start len : Nat) : String :=
  String.mk ((s.data.drop start).take len)

/-- Modelled from the spec: the directory listing body — the entry names of
the directory, sorted lexicographically (spec §4.2 step 2; listings are
allowed by default in this system). -/
def renderListing (entries : List String) : String :=
  String.intercalate "\n" (List.insertionSort (· ≤ ·) entries)

/-- Modelled from the spec: serving the bytes of a regular file once it has
been chosen (spec §4.2 step 3, range part; §6 wire protocol).  A valid byte
range yields 206 with the requested subrange, an unsatisfiable one the range
error; otherwise 200 with the full content.  A `HEAD` request carries no
body but reports the same content length. -/
def rangeOrFull (req : StaticRequest) (content : String) : Response :=
  match req.range with
  | some r =>
    if r.1 < content.length then
      { status := 206
        body := if req.method = "HEAD" then "" else substr content r.1 r.2
        contentLength := (substr content r.1 r.2).length }
    else
      { status := 416
        body := "invalid range\n"
        contentLength := "invalid range\n".length }
  | none =>
    { status := 200
      body := if req.method = "HEAD" then "" else content
      contentLength := content.length }

/-- Modelled from the spec: conditional requests (spec §4.2 step 3 and §8,
"a GET with an If-Modified-Since header equal to or after the file's
modification time returns 304 with an empty body"); otherwise the file
content is served per `rangeOrFull`. -/
def serveContent (req : StaticRequest) (content : String) (modTime : Nat) :
    Response :=
  match req.ifModifiedSince with
  | some t =>
    if modTime ≤ t then { status := 304, body := "", contentLength := 0 }
    else rangeOrFull req content
  | none => rangeOrFull req content

/-- Modelled from the spec: the full static content handler (spec §4.2 steps
1–4 and §4.2 error conditions; library code outside this repository).  The
URL path is neutralized and resolved under the root (step 1); a directory is
served through its default index document when present and as a sorted
listing otherwise (step 2); a regular file is served with conditional and
range handling (step 3); a missing path yields the generic not-found
response (step 4); an unreadable node yields a server error; methods other
than `GET`/`HEAD` are refused. -/
def serveStatic (fs : FsTree) (root : List String) (req : StaticRequest) :
    Response :=
  if req.method = "GET" ∨ req.method = "HEAD" then
    match fs (resolve root req.path) with
    | some (.file c mt) => serveContent req c mt
    | some (.dir entries) =>
      match fs (resolve root req.path ++ ["index.html"]) with
      | some (.file c mt) => serveContent req c mt
      | _ =>
        { status := 200
          body := if req.method = "HEAD" then "" else renderListing entries
          contentLength := (renderListing entries).length }
    | some .unreadable =>
      { status := 500
        body := "internal server error\n"
        contentLength := "internal server error\n".length }
    | none =>
      { status := 404
        body := "404 page not found\n"
        contentLength := "404 page not found\n".length }
  else
    { status := 405
      body := "method not allowed\n"
      contentLength := "method not allowed\n".length }

/-- A response body carrying no served content: empty, or one of the fixed
generic messages, all independent of the served tree. -/
def genericBody (b : String) : Prop :=
  b = "" ∨ b = "404 page not found\n" ∨ b = "method not allowed\n" ∨
  b = "internal server error\n" ∨ b = "invalid range\n"

/-- The body derives from the given node: the bytes or a byte subrange of a
regular file, or the rendered listing of a directory; nothing derives from
an unreadable node. -/
def BodyFromNode (n : Node) (body : String) : Prop :=
  match n with
  | .file c _ => body = c ∨ ∃ start len, body = substr c start len
  | .dir entries => body = renderListing entries
  | .unreadable => False

/-! ## Theorems -/

/-- C1: for every request the composed server handles, the request logger
emits exactly one log line, placed after everything the downstream handler
wrote (the downstream static handler writes nothing), of the form
`<METHOD> <REQUEST_URI> <DURATION>ms` where the duration is the elapsed
nanoseconds rendered as fractional milliseconds. -/
theorem log_exactly_once {ρ : Type} (h : Handler ρ) (r : Request) (t : Int)
    (resp : ρ) (hok : (h r t).outcome = .ok resp)
    (hquiet : (h r t).lines = []) :
    (logMiddleware h r t).lines =
      [r.method ++ " " ++ r.requestURI ++ " " ++
        formatMs ((h r t).endTime - t) ++ "ms"] := by
  simp [logMiddleware, hok, hquiet, logLine]

/-- A sample downstream handler taking five milliseconds per request. -/
def pingHandler : Handler Nat :=
  fun _ t => { outcome := .ok 0, endTime := t + 5000000, lines := [] }

/-- Witness for C1 at a concrete request. -/
theorem log_exactly_once_witness :
    (logMiddleware pingHandler
        { method := "GET", requestURI := "/x", path := "/x" } 100).lines =
      ["GET /x 5.000000ms"] := by
  have h := log_exactly_once pingHandler
    { method := "GET", requestURI := "/x", path := "/x" } 100 0 rfl rfl
  rw [h]
  rfl

/-- C5: a panic in the downstream handler propagates before `log.Printf`
runs, so the middleware adds no log line for that request and changes
nothing about the result; the middleware itself introduces no failure (it
is a total function of the downstream result). -/
theorem no_log_on_panic {ρ : Type} (h : Handler ρ) (r : Request) (t : Int)
    (hp : (h r t).outcome = .panic) :
    logMiddleware h r t = h r t := by
  simp [logMiddleware, hp]

/-- A downstream handler that always panics. -/
def faultyHandler : Handler Nat :=
  fun _ t => { outcome := .panic, endTime := t, lines := [] }

/-- Witness for C5 at a concrete request. -/
theorem no_log_on_panic_witness :
    logMiddleware faultyHandler
        { method := "GET", requestURI := "/x", path := "/x" } 7 =
      faultyHandler { method := "GET", requestURI := "/x", path := "/x" } 7 :=
  no_log_on_panic faultyHandler
    { method := "GET", requestURI := "/x", path := "/x" } 7 rfl

/-- C6: the middleware passes the request to the downstream handler
unchanged (observationally: its result is a function of `h r t` for the
same `r`), leaves the downstream outcome — hence the response written to
the response sink — and the return time untouched, and its only side
effect is at most one line appended to the shared log sink. -/
theorem middleware_frame {ρ : Type} (h : Handler ρ) (r : Request) (t : Int) :
    (logMiddleware h r t).outcome = (h r t).outcome ∧
    (logMiddleware h r t).endTime = (h r t).endTime ∧
    ∃ extra : List String,
      (logMiddleware h r t).lines = (h r t).lines ++ extra ∧
      extra.length ≤ 1 := by
  unfold logMiddleware
  cases hout : (h r t).outcome with
  | ok resp =>
    refine ⟨by simp [hout], by simp [hout], [logLine r ((h r t).endTime - t)], ?_, ?_⟩
    · simp [hout]
    · simp
  | panic =>
    exact ⟨by simp [hout], by simp [hout], [], by simp [hout], by simp⟩

/-- C7: when the downstream handler is monotone in time (Go's `time.Since`
reads the monotonic clock), the logged duration for a normally handled
request is non-negative and is exactly the elapsed nanoseconds between start
and the handler's return, rendered in milliseconds with the non-negative
formatter. -/
theorem duration_nonneg_consistent {ρ : Type} (h : Handler ρ)
    (hm : Handler.Monotone h) (r : Request) (t : Int) (resp : ρ)
    (hok : (h r t).outcome = .ok resp) :
    0 ≤ (h r t).endTime - t ∧
    (logMiddleware h r t).lines =
      (h r t).lines ++ [logLine r ((h r t).endTime - t)] ∧
    formatMs ((h r t).endTime - t) =
      formatMsNat ((h r t).endTime - t).toNat := by
  have hd : 0 ≤ (h r t).endTime - t := by
    have := hm r t
    omega
  refine ⟨hd, ?_, ?_⟩
  · simp [logMiddleware, hok]
  · rw [formatMs, if_neg (by omega)]

/-- Witness for C7 at a concrete request. -/
theorem duration_nonneg_consistent_witness :
    0 ≤ (pingHandler { method := "GET", requestURI := "/x", path := "/x" } 100).endTime - 100 ∧
    (logMiddleware pingHandler { method := "GET", requestURI := "/x", path := "/x" } 100).lines =
      (pingHandler { method := "GET", requestURI := "/x", path := "/x" } 100).lines ++
        [logLine { method := "GET", requestURI := "/x", path := "/x" }
          ((pingHandler { method := "GET", requestURI := "/x", path := "/x" } 100).endTime - 100)] ∧
    formatMs ((pingHandler { method := "GET", requestURI := "/x", path := "/x" } 100).endTime - 100) =
      formatMsNat ((pingHandler { method := "GET", requestURI := "/x", path := "/x" } 100).endTime - 100).toNat :=
  duration_nonneg_consistent pingHandler
    (fun r t => by simp [pingHandler])
    { method := "GET", requestURI := "/x", path := "/x" } 100 0 rfl

/-- A segment kept by the neutralization never is empty, `.` or `..`. -/
lemma mem_cleanLoop (segs : List String) (acc : List String)
    (hacc : ∀ s ∈ acc, s ≠ "" ∧ s ≠ "." ∧ s ≠ "..") :
    ∀ s ∈ cleanLoop acc segs, s ≠ "" ∧ s ≠ "." ∧ s ≠ ".." := by
  induction segs generalizing acc with
  | nil => simpa [cleanLoop] using hacc
  | cons seg rest ih =>
    intro s hs
    rw [cleanLoop] at hs
    by_cases h1 : seg = "" ∨ seg = "."
    · rw [if_pos h1] at hs
      exact ih acc hacc s hs
    · rw [if_neg h1] at hs
      by_cases h2 : seg = ".."
      · rw [if_pos h2] at hs
        exact ih acc.dropLast
          (fun x hx => hacc x (List.dropLast_subset acc hx)) s hs
      · rw [if_neg h2] at hs
        refine ih (acc ++ [seg]) ?_ s hs
        intro x hx
        rcases List.mem_append.1 hx with hx | hx
        · exact hacc x hx
        · rcases List.mem_singleton.1 hx with rfl
          push_neg at h1
          exact ⟨h1.1, h1.2, h2⟩

/-- No traversal, current-directory or empty segment survives
neutralization of a URL path. -/
lemma cleanName_good (name : String) :
    ∀ s ∈ cleanName name, s ≠ "" ∧ s ≠ "." ∧ s ≠ ".." :=
  mem_cleanLoop (pathSegs name) [] (by simp)

/-- Whatever conditional and range handling does, a served body is generic
or derives from the chosen file. -/
lemma rangeOrFull_from (req : StaticRequest) (c : String) (mt : Nat) :
    genericBody (rangeOrFull req c).body ∨
    BodyFromNode (.file c mt) (rangeOrFull req c).body := by
  cases hr : req.range with
  | some r =>
    by_cases hs : r.1 < c.length
    · by_cases hh : req.method = "HEAD"
      · left
        simp [rangeOrFull, hr, hs, hh, genericBody]
      · right
        have he : (rangeOrFull req c).body = substr c r.1 r.2 := by
          simp [rangeOrFull, hr, hs, hh]
        rw [he]
        exact Or.inr ⟨r.1, r.2, rfl⟩
    · left
      simp [rangeOrFull, hr, hs, genericBody]
  | none =>
    by_cases hh : req.method = "HEAD"
    · left
      simp [rangeOrFull, hr, hh, genericBody]
    · right
      have he : (rangeOrFull req c).body = c := by
        simp [rangeOrFull, hr, hh]
      rw [he]
      exact Or.inl rfl

/-- Serving a chosen file, conditional requests included, only ever emits a
generic body or bytes derived from that file. -/
lemma serveContent_from (req : StaticRequest) (c : String) (mt : Nat) :
    genericBody (serveContent req c mt).body ∨
    BodyFromNode (.file c mt) (serveContent req c mt).body := by
  cases hi : req.ifModifiedSince with
  | some t =>
    by_cases hmt : mt ≤ t
    · left
      simp [serveContent, hi, hmt, genericBody]
    · have he : serveContent req c mt = rangeOrFull req c := by
        simp [serveContent, hi, hmt]
      rw [he]
      exact rangeOrFull_from req c mt
  | none =>
    have he : serveContent req c mt = rangeOrFull req c := by
      simp [serveContent, hi]
    rw [he]
    exact rangeOrFull_from req c mt

/-- C2 (amended): for every request — traversal sequences included — the
static handler never returns content of a file outside the configured root:
its neutralized path contains no `..`, `.` or empty segment, the only paths
it consults are the root extended by that neutralized path (and the default
index document below it), and every response body is either a fixed generic
message or derives from the node stored at one of those in-root paths.
The response to a traversal request is, however, not always 404 or 400. -/
theorem static_never_escapes (fs : FsTree) (root : List String)
    (req : StaticRequest) :
    (∀ s ∈ cleanName req.path, s ≠ "" ∧ s ≠ "." ∧ s ≠ "..") ∧
    resolve root req.path = root ++ cleanName req.path ∧
    (genericBody (serveStatic fs root req).body ∨
      ∃ p n,
        (p = resolve root req.path ∨
          p = resolve root req.path ++ ["index.html"]) ∧
        fs p = some n ∧
        BodyFromNode n (serveStatic fs root req).body) := by
  refine ⟨cleanName_good req.path, rfl, ?_⟩
  by_cases hm : req.method = "GET" ∨ req.method = "HEAD"
  · cases hp : fs (resolve root req.path) with
    | none =>
      left
      simp [serveStatic, hm, hp, genericBody]
    | some n =>
      cases n with
      | file c mt =>
        have he : serveStatic fs root req = serveContent req c mt := by
          simp [serveStatic, hm, hp]
        rw [he]
        rcases serveContent_from req c mt with hg | hb
        · exact Or.inl hg
        · exact Or.inr ⟨resolve root req.path, .file c mt, Or.inl rfl, hp, hb⟩
      | unreadable =>
        left
        simp [serveStatic, hm, hp, genericBody]
      | dir entries =>
        cases hq : fs (resolve root req.path ++ ["index.html"]) with
        | some m =>
          cases m with
          | file c mt =>
            have he : serveStatic fs root req = serveContent req c mt := by
              simp [serveStatic, hm, hp, hq]
            rw [he]
            rcases serveContent_from req c mt with hg | hb
            · exact Or.inl hg
            · exact Or.inr ⟨resolve root req.path ++ ["index.html"],
                .file c mt, Or.inr rfl, hq, hb⟩
          | dir es =>
            by_cases hh : req.method = "HEAD"
            · left
              simp [serveStatic, hm, hp, hq, hh, genericBody]
            · refine Or.inr ⟨resolve root req.path, .dir entries,
                Or.inl rfl, hp, ?_⟩
              have he : (serveStatic fs root req).body = renderListing entries := by
                rcases hm with hg | hg
                · simp [serveStatic, hg, hp, hq]
                · exact absurd hg hh
              rw [BodyFromNode, he]
          | unreadable =>
            by_cases hh : req.method = "HEAD"
            · left
              simp [serveStatic, hm, hp, hq, hh, genericBody]
            · refine Or.inr ⟨resolve root req.path, .dir entries,
                Or.inl rfl, hp, ?_⟩
              have he : (serveStatic fs root req).body = renderListing entries := by
                rcases hm with hg | hg
                · simp [serveStatic, hg, hp, hq]
                · exact absurd hg hh
              rw [BodyFromNode, he]
        | none =>
          by_cases hh : req.method = "HEAD"
          · left
            simp [serveStatic, hm, hp, hq, hh, genericBody]
          · refine Or.inr ⟨resolve root req.path, .dir entries,
              Or.inl rfl, hp, ?_⟩
            have he : (serveStatic fs root req).body = renderListing entries := by
              rcases hm with hg | hg
              · simp [serveStatic, hg, hp, hq]
              · exact absurd hg hh
            rw [BodyFromNode, he]
  · left
    simp [serveStatic, hm, genericBody]

/-- A served tree that happens to contain `docs/etc/passwd`, with its
enclosing directories. -/
def trapTree : FsTree :=
  fun p =>
    if p = ["docs", "etc", "passwd"] then some (.file "inside-root" 0)
    else if p = ["docs", "etc"] then some (.dir ["passwd"])
    else if p = ["docs"] then some (.dir ["etc"])
    else none

/-- Counterexample to C2 as stated: the request path `/../../etc/passwd`
contains traversal segments, yet against a root that itself contains
`etc/passwd` the full static handler answers a plain GET with 200 — serving
the in-root file — not 404 or 400. -/
theorem traversal_not_always_404 :
    ".." ∈ pathSegs "/../../etc/passwd" ∧
    (serveStatic trapTree ["docs"]
      { method := "GET", path := "/../../etc/passwd" }).status = 200 ∧
    (serveStatic trapTree ["docs"]
      { method := "GET", path := "/../../etc/passwd" }).body = "inside-root" ∧
    (serveStatic trapTree ["docs"]
      { method := "GET", path := "/../../etc/passwd" }).status ≠ 404 ∧
    (serveStatic trapTree ["docs"]
      { method := "GET", path := "/../../etc/passwd" }).status ≠ 400 := by
  decide

/-- C8: repeated GET requests for a path naming an existing regular file
under the root, processed by the composed handler at any two times and
under any two timing behaviors, both succeed with byte-identical bodies and
identical content lengths — the bytes of that file, the tree being
read-only. -/
theorem get_idempotent (fs : FileSystem)
    (δ δ₂ : Request → Int → Int) (r : Request) (t t₂ : Int)
    (content : String)
    (hf : fs (resolve rootSegs r.path) = some content) :
    ∃ b b₂ : Response,
      (composedHandler fs δ r t).outcome = .ok b ∧
      (composedHandler fs δ₂ r t₂).outcome = .ok b₂ ∧
      b.body = b₂.body ∧
      b.contentLength = b₂.contentLength ∧
      b.body = content ∧
      b.contentLength = content.length ∧
      b.status = 200 := by
  refine ⟨serveFile fs rootSegs r.path, serveFile fs rootSegs r.path,
    ?_, ?_, rfl, rfl, ?_, ?_, ?_⟩ <;>
    simp [composedHandler, logMiddleware, fileHandler, serveFile, hf]

/-- The tree served in the concrete scenario: `docs/index.html`. -/
def helloFs : FileSystem :=
  fun p => if p = ["docs", "index.html"] then some "hello" else none

/-- Witness for C8 at a concrete file and two different request times. -/
theorem get_idempotent_witness :
    ∃ b b₂ : Response,
      (composedHandler helloFs (fun _ _ => 3) { method := "GET", requestURI := "/index.html", path := "/index.html" } 0).outcome = .ok b ∧
      (composedHandler helloFs (fun _ _ => 9) { method := "GET", requestURI := "/index.html", path := "/index.html" } 50).outcome = .ok b₂ ∧
      b.body = b₂.body ∧
      b.contentLength = b₂.contentLength ∧
      b.body = "hello" ∧
      b.contentLength = "hello".length ∧
      b.status = 200 :=
  get_idempotent helloFs (fun _ _ => 3) (fun _ _ => 9)
    { method := "GET", requestURI := "/index.html", path := "/index.html" }
    0 50 "hello" (by decide)

/-- C3: when the single bind attempt fails, `log.Fatal` logs the error
message right after the startup line and the process exits with status 1 —
a non-zero code; the bind is attempted exactly once, so there is no retry
and no fallback port. -/
theorem bind_failure_fatal (args : List String) (port : String)
    (bind : String → Option String) (fs : FileSystem)
    (δ : Request → Int → Int) (reqs : List (Request × Int)) (e : String)
    (hp : parsePort args = .ok port)
    (hb : bind (":" ++ port) = some e) :
    (runServer args bind fs δ reqs).outcome = .exited 1 ∧
    (1 : Nat) ≠ 0 ∧
    (runServer args bind fs δ reqs).log = [startupLine port, e] := by
  simp [runServer, hp, hb]

/-- A bind that always fails, as when the port is already in use. -/
def busyBind : String → Option String :=
  fun a => some ("listen tcp " ++ a ++ ": bind: address already in use")

/-- Witness for C3: default port, already in use. -/
theorem bind_failure_fatal_witness :
    (runServer [] busyBind helloFs (fun _ _ => 0) []).outcome = .exited 1 ∧
    (1 : Nat) ≠ 0 ∧
    (runServer [] busyBind helloFs (fun _ _ => 0) []).log =
      [startupLine "9000",
        "listen tcp :9000: bind: address already in use"] :=
  bind_failure_fatal [] "9000" busyBind helloFs (fun _ _ => 0) []
    "listen tcp :9000: bind: address already in use" rfl rfl

/-- C4: the configuration is assembled once from the arguments before
anything else runs — the only recognized option is `-p` (default
`"9000"`, any other flag name aborts parsing with an error), the root is
the fixed `./docs`, and whenever parsing yields a port the server hands
exactly the address `:<port>` to the single `ListenAndServe` call and
serves every request from the fixed root for the life of the process. -/
theorem config_built_once (args : List String) (port : String)
    (bind : String → Option String) (fs : FileSystem)
    (δ : Request → Int → Int) (reqs : List (Request × Int))
    (hp : parsePort args = .ok port) :
    (runServer args bind fs δ reqs).addr = some (":" ++ port) ∧
    parsePort [] = .ok "9000" ∧
    (∀ v, parsePort ["-p", v] = .ok v) ∧
    parsePort ["-p=8080"] = .ok "8080" ∧
    (∀ w, parsePort ["-d", w] = .error (.undefinedFlag "d")) ∧
    rootSegs = ["docs"] ∧
    (bind (":" ++ port) = none →
      (runServer args bind fs δ reqs).responses =
        reqs.map fun p => serveFile fs rootSegs p.1.path) := by
  refine ⟨?_, rfl, fun v => rfl, rfl, fun w => rfl, rfl, ?_⟩
  · cases hb : bind (":" ++ port) <;> simp [runServer, hp, hb]
  · intro hb
    simp [runServer, hp, hb]

/-- Witness for C4 at `-p 8080` with a successful bind. -/
theorem config_built_once_witness :
    (runServer ["-p", "8080"] (fun _ => none) helloFs (fun _ _ => 0)
        []).addr = some ":8080" ∧
    (runServer ["-p", "8080"] (fun _ => none) helloFs (fun _ _ => 0)
        []).responses = [] :=
  have h := config_built_once ["-p", "8080"] "8080" (fun _ => none) helloFs
    (fun _ _ => 0) [] rfl
  ⟨h.1, h.2.2.2.2.2.2 rfl⟩

/-- C10: whenever flag parsing succeeds the first line on the log sink —
written before the bind is attempted, and the same sink the per-request
lines go to — is `Serving ./docs on HTTP port: <port>`, and on a
successful bind the whole log is exactly that startup line followed by the
per-request lines. -/
theorem startup_line_first (args : List String) (port : String)
    (bind : String → Option String) (fs : FileSystem)
    (δ : Request → Int → Int) (reqs : List (Request × Int))
    (hp : parsePort args = .ok port) :
    (runServer args bind fs δ reqs).log.head? = some (startupLine port) ∧
    startupLine port = "Serving ./docs on HTTP port: " ++ port ∧
    (bind (":" ++ port) = none →
      (runServer args bind fs δ reqs).log =
        startupLine port :: requestLines fs δ reqs) := by
  refine ⟨?_, rfl, ?_⟩
  · cases hb : bind (":" ++ port) <;> simp [runServer, hp, hb]
  · intro hb
    simp [runServer, hp, hb]

/-- Witness for C10: default port, successful bind, one request. -/
theorem startup_line_first_witness :
    (runServer [] (fun _ => none) helloFs (fun _ _ => 0)
        [({ method := "GET", requestURI := "/index.html", path := "/index.html" }, 0)]).log.head? =
      some (startupLine "9000") ∧
    (runServer [] (fun _ => none) helloFs (fun _ _ => 0)
        [({ method := "GET", requestURI := "/index.html", path := "/index.html" }, 0)]).log =
      startupLine "9000" :: requestLines helloFs (fun _ _ => 0)
        [({ method := "GET", requestURI := "/index.html", path := "/index.html" }, 0)] :=
  have h := startup_line_first [] "9000" (fun _ => none) helloFs
    (fun _ _ => 0)
    [({ method := "GET", requestURI := "/index.html", path := "/index.html" }, 0)] rfl
  ⟨h.1, h.2.2 rfl⟩

/-- C9: neither helper validates its arguments before using them.  The
server treats a missing port silently — no `-p` means the default
`"9000"` and a normal boot — and the compression CLI, given fewer than
three arguments, prints its usage line yet falls through to indexing
`args[1]`/`args[2]`, ending in an index-out-of-range panic instead of a
deliberate fail-fast exit. -/
theorem missing_args_not_validated :
    parsePort [] = .ok "9000" ∧
    (∀ (bind : String → Option String) (fs : FileSystem)
        (δ : Request → Int → Int) (reqs : List (Request × Int)),
      bind ":9000" = none →
      (runServer [] bind fs δ reqs).outcome = .serving) ∧
    (∀ args : List String, args.length < 3 →
      compressionRun args = (true, .panic "index out of range")) := by
  refine ⟨rfl, ?_, ?_⟩
  · intro bind fs δ reqs hb
    simp [runServer, parsePort, parseArgs, hb]
  · intro args hlen
    have h2 : args[2]? = none := List.getElem?_eq_none (by omega)
    unfold compressionRun
    cases h1 : args[1]? <;> simp [h1, h2, hlen]

/-- Witness for C9: the compression CLI invoked with only an input file. -/
theorem missing_args_not_validated_witness :
    compressionRun ["gopdf", "in.pdf"] =
      (true, .panic "index out of range") :=
  missing_args_not_validated.2.2 ["gopdf", "in.pdf"] (by decide)

end Resume
